import Mathlib

/-!
Verification development for the playlist writer of the m3u8 library
(`src/writer.go`).  The Go code is shallowly embedded: every method of
`MediaPlaylist` / `MasterPlaylist` in `writer.go` becomes a pure Lean
function from the receiver state to the updated state (Go methods mutate
the receiver in place and return an optional `error`; here they return
the new state paired with `Option Err`).  Go's `float64` duration and
time-offset values are modelled by the exact-decimal type `F` below
(an integer numerator over a positive natural denominator), which is
interpreted into `ℚ` for the arithmetic theorems; all concrete values in
this development are exactly representable, so no floating-point rounding
is abstracted away on any evaluated path.  `time.Time` fields are
modelled by their already-`DATETIME`-formatted string (`none` models the
zero time, matching `IsZero`).  Go `map` iteration (custom tags, the
`X` attribute map of a DateRange) has unspecified order; it is modelled
by insertion-ordered association lists, which fixes one of the orders the
Go program may produce.
-/

namespace M3U8

/-- Exact-decimal stand-in for Go `float64` values (durations, time
offsets).  `den` is kept positive so that the interpretation into `ℚ`
is a genuine fraction. -/
structure F where
  num : Int
  den : Nat
  den_pos : 0 < den

instance : DecidableEq F := fun a b =>
  decidable_of_iff (a.num = b.num ∧ a.den = b.den) (by
    cases a; cases b; simp)

/-- Interpretation of `F` into `ℚ`. -/
def F.toRat (x : F) : ℚ := (x.num : ℚ) / (x.den : ℚ)

/-- Integer literal as an `F` value. -/
def fInt (n : Int) : F := ⟨n, 1, Nat.one_pos⟩

/-- The zero duration. -/
def fzero : F := fInt 0

/-- Go `<` on two modelled floats. -/
def F.blt (a b : F) : Bool := decide (a.num * (b.den : Int) < b.num * (a.den : Int))

/-- Go `==` on two modelled floats. -/
def F.beq (a b : F) : Bool := decide (a.num * (b.den : Int) = b.num * (a.den : Int))

/-- Model of `math.Ceil`, as an integer.  For a positive denominator,
`⌈n/d⌉ = -((-n)/d)` with Lean's (floor-rounding) integer division. -/
def F.ceil (x : F) : Int := -((-x.num) / (x.den : Int))

/-- Model of `strconv.FormatUint`: integer rendering used throughout the encoder. -/
def strOfNat (n : Nat) : String := toString n

/-- Model of `strconv.FormatInt` on an `int64` value. -/
def strOfInt (n : Int) : String := toString n

/-- Go `strver` (writer.go:37): decimal rendering of the version. -/
def strver (ver : Nat) : String := strOfNat ver

/-- Go `version` (writer.go:31): raise a version counter monotonically. -/
def versionRaise (ver newver : Nat) : Nat := if ver < newver then newver else ver

/-- Three-digit zero padding for the fractional part of a fixed-point
rendering. -/
def pad3 (n : Nat) : String :=
  if n < 10 then "00" ++ toString n
  else if n < 100 then "0" ++ toString n
  else toString n

/-- Model of `strconv.FormatFloat(v, 'f', 3, 32)`: fixed three-decimal
rendering, rounding half away from zero.  All values this development
evaluates it on are exactly representable, so the float32 rounding of the
Go original coincides with this exact computation. -/
def formatFixed3 (x : F) : String :=
  let sign := if x.num < 0 then "-" else ""
  let a : Nat := x.num.natAbs
  let n : Nat := (a * 2000 + x.den) / (2 * x.den)
  sign ++ toString (n / 1000) ++ "." ++ pad3 (n % 1000)

/-- Left-pad a decimal string with zeros to `k` digits. -/
def padLeftZeros (s : String) (k : Nat) : String :=
  String.mk (List.replicate (k - s.length) '0') ++ s

/-- Model of `strconv.FormatFloat(v, 'f', -1, 64)` (shortest decimal):
rendered with up to nine decimals, trailing zeros stripped.  Values on
this path in the source are SCTE cue times and start offsets; none are
evaluated concretely in this development. -/
def formatShortest (x : F) : String :=
  let sign := if x.num < 0 then "-" else ""
  let a : Nat := x.num.natAbs
  let n : Nat := (a * 2 * 1000000000 + x.den) / (2 * x.den)
  let ip := n / 1000000000
  let fp := n % 1000000000
  if fp = 0 then sign ++ toString ip
  else
    let fs := String.mk
      (((padLeftZeros (toString fp) 9).data.reverse.dropWhile (fun c => c = '0')).reverse)
    sign ++ toString ip ++ "." ++ fs

/-- Error values of the mutation API (writer.go builds them with
`errors.New`; the distinct messages are modelled as distinct
constructors). -/
inductive Err where
  | playlistFull
  | playlistEmpty
  | windowSize
  | dateRangeID
deriving DecidableEq, Repr

/-- Go `Key` (structure.go): EXT-X-KEY attribute set. -/
structure Key where
  Method : String
  URI : String
  IV : String
  Keyformat : String
  Keyformatversions : String
deriving DecidableEq, Repr

/-- A Go `*Key` allocation: the `tag` models the pointer identity, so two
independently constructed keys with equal contents are distinct
references.  `writer.go:752` compares `p.Key != seg.Key` on the pointers,
i.e. on whole `KeyRef` values here. -/
structure KeyRef where
  tag : Nat
  key : Key
deriving DecidableEq, Repr

/-- Go `Map` (structure.go): EXT-X-MAP attribute set.  (The Go type is
named `Map`; renamed here to avoid clashing with the field of the same
name.) -/
structure MapTag where
  URI : String
  Limit : Int
  Offset : Int
deriving DecidableEq, Repr

/-- Go `SCTE35Syntax` constants (structure.go). -/
inductive SCTESyntaxKind where
  | SCTE35_67_2014
  | SCTE35_OATCLS
deriving DecidableEq, Repr

/-- Go `SCTE35CueType` constants (structure.go). -/
inductive SCTECueType where
  | SCTE35Cue_Start
  | SCTE35Cue_Mid
  | SCTE35Cue_End
deriving DecidableEq, Repr

/-- Go `SCTE` (structure.go).  The Go field `Syntax` is renamed `Stx`. -/
structure SCTEData where
  Stx : SCTESyntaxKind
  Cue : String
  ID : String
  Time : F
  Elapsed : F
  CueType : SCTECueType
deriving DecidableEq

/-- Go `DateRange` (structure.go).  `StartDate`/`EndDate` carry the
`DATETIME`-formatted representation (`none` models the zero time); `X`
is the extension-attribute map as an insertion-ordered list. -/
structure DateRange where
  ID : String
  Class : String
  StartDate : Option String
  EndDate : Option String
  Duration : F
  PlannedDuration : F
  SCTE35Cmd : String
  SCTE35In : String
  SCTE35Out : String
  EndOnNext : String
  XResumeOfsset : F
  XPlayoutLimit : F
  XSnap : String
  XRestrict : String
  XAssetURI : String
  XAssetList : String
  X : List (String × String)
deriving DecidableEq

/-- A custom tag (Go `CustomTag` interface): its name and the optional
text its `Encode` produces (`none` models a nil buffer). -/
structure CustomTag where
  name : String
  text : Option String
deriving DecidableEq, Repr

/-- Go `MediaSegment` (structure.go), with pointers modelled as options
and `ProgramDateTime` by its formatted representation. -/
structure MediaSegment where
  URI : String
  Duration : F
  Title : String
  SeqId : Nat
  Key : Option KeyRef
  Map : Option MapTag
  SCTE : Option SCTEData
  DateRange : List DateRange
  Discontinuity : Bool
  Gap : Bool
  ProgramDateTime : Option String
  Limit : Int
  Offset : Int
  Custom : List CustomTag
deriving DecidableEq

/-- A bare segment carrying only URI/duration/title, as built by
`MediaPlaylist.Append` (writer.go:470). -/
def mkSegment (uri : String) (duration : F) (title : String) : MediaSegment :=
  { URI := uri, Duration := duration, Title := title, SeqId := 0,
    Key := none, Map := none, SCTE := none, DateRange := [],
    Discontinuity := false, Gap := false, ProgramDateTime := none,
    Limit := 0, Offset := 0, Custom := [] }

/-- Go `MediaType` constants (structure.go): unset, EVENT, VOD. -/
inductive MediaTypeKind where
  | unset
  | EVENT
  | VOD
deriving DecidableEq, Repr

/-- Go `WV` (structure.go): Widevine vendor metadata. -/
structure WV where
  AudioChannels : Nat
  AudioFormat : Nat
  AudioProfileIDC : Nat
  AudioSampleSize : Nat
  AudioSamplingFrequency : Nat
  CypherVersion : String
  ECM : String
  VideoFormat : Nat
  VideoFrameRate : Nat
  VideoLevelIDC : Nat
  VideoProfileIDC : Nat
  VideoResolution : String
  VideoSAR : String
deriving DecidableEq

/-- Go `MediaPlaylist` (structure.go), with the fields `writer.go`
reads and writes.  `Segments` is the backing slice (`none` slots are nil
pointers); `buf` is the cached encoding. -/
structure MediaPlaylist where
  TargetDuration : F
  SeqNo : Nat
  Segments : List (Option MediaSegment)
  Args : String
  Iframe : Bool
  Closed : Bool
  MediaType : MediaTypeKind
  DiscontinuitySeq : Nat
  StartTime : F
  StartTimePrecise : Bool
  winsize : Nat
  capacity : Nat
  head : Nat
  tail : Nat
  count : Nat
  buf : String
  Key : Option KeyRef
  Map : Option MapTag
  WV : Option WV
  Custom : List CustomTag
  ver : Nat
  durationAsInt : Bool
  independentSegments : Bool
deriving DecidableEq

/-- Go `Alternative` (structure.go); the Go field `Type` (a Lean keyword)
is renamed `AltType`. -/
structure Alternative where
  GroupId : String
  URI : String
  AltType : String
  Language : String
  Name : String
  Default : Bool
  Autoselect : String
  Forced : String
  Characteristics : String
  Subtitles : String
  InstreamId : String
  Channels : String
deriving DecidableEq, Repr

/-- Go `VariantParams` together with `Variant` (structure.go); the Go
field `Audio` is renamed `AudioGroup`.  `Chunklist` is a non-owning
`*MediaPlaylist` back-reference, modelled as an opaque handle; the
encoder never reads it. -/
structure Variant where
  URI : String
  Chunklist : Option Nat
  ProgramId : Nat
  Bandwidth : Nat
  AverageBandwidth : Nat
  Codecs : String
  Resolution : String
  AudioGroup : String
  Video : String
  Captions : String
  Subtitles : String
  Name : String
  Iframe : Bool
  VideoRange : String
  HDCPLevel : String
  FrameRate : F
  Alternatives : List Alternative
deriving DecidableEq

/-- Go `SessionData` (structure.go). -/
structure SessionData where
  DataID : String
  Value : String
  URI : String
  Language : String
deriving DecidableEq, Repr

/-- Go `MasterPlaylist` (structure.go). -/
structure MasterPlaylist where
  Variants : List Variant
  Args : String
  buf : String
  ver : Nat
  independentSegments : Bool
  SessionData : List SessionData
  Custom : List CustomTag
deriving DecidableEq

/-- Modelled from the spec: the protocol-version floor `minver` assigned
by both constructors lives in structure.go, which is not under src/; the
baseline HLS protocol version is 3. -/
def minver : Nat := 3

end M3U8

namespace M3U8

/-- Replace-by-name insertion into a custom-tag set (Go map assignment
`m[tag.TagName()] = tag`, with insertion order standing in for Go's map
iteration order). -/
def setTag (l : List CustomTag) (t : CustomTag) : List CustomTag :=
  if l.any (fun c => c.name = t.name) then
    l.map (fun c => if c.name = t.name then t else c)
  else l ++ [t]

/-- Update the segment stored in slot `i`; Go dereferences the slot
pointer directly, so a nil or out-of-range slot would panic there — those
states are unreachable through the API whenever `count > 0`, and this
model leaves the list unchanged in that case. -/
def updateSlot (segs : List (Option MediaSegment)) (i : Nat)
    (f : MediaSegment → MediaSegment) : List (Option MediaSegment) :=
  match segs[i]? with
  | some (some s) => segs.set i (some (f s))
  | _ => segs

/-- Go `NewMasterPlaylist` (writer.go:43). -/
def NewMasterPlaylist : MasterPlaylist :=
  { Variants := [], Args := "", buf := "", ver := minver,
    independentSegments := false, SessionData := [], Custom := [] }

/-- Go `MasterPlaylist.Append` (writer.go:51).  `params` carries the
`VariantParams`; the `URI` and `Chunklist` fields of the new variant are
overwritten from the first two arguments as in the source. -/
def MasterPlaylist.Append (p : MasterPlaylist) (uri : String)
    (chunklist : Option Nat) (params : Variant) : MasterPlaylist :=
  let v : Variant := { params with URI := uri, Chunklist := chunklist }
  let ver' := if 0 < v.Alternatives.length then versionRaise p.ver 4 else p.ver
  { p with Variants := p.Variants ++ [v], ver := ver', buf := "" }

/-- Go `MasterPlaylist.ResetCache` (writer.go:71). -/
def MasterPlaylist.ResetCache (p : MasterPlaylist) : MasterPlaylist :=
  { p with buf := "" }

/-- Go `MasterPlaylist.SetCustomTag` (writer.go:326). -/
def MasterPlaylist.SetCustomTag (p : MasterPlaylist) (tag : CustomTag) : MasterPlaylist :=
  { p with Custom := setTag p.Custom tag }

/-- Go `MasterPlaylist.SetVersion` (writer.go:341). -/
def MasterPlaylist.SetVersion (p : MasterPlaylist) (v : Nat) : MasterPlaylist :=
  { p with ver := v }

/-- Go `MasterPlaylist.SetIndependentSegments` (writer.go:353). -/
def MasterPlaylist.SetIndependentSegments (p : MasterPlaylist) (b : Bool) : MasterPlaylist :=
  { p with independentSegments := b }

/-- Go `MediaPlaylist.SetWinSize` (writer.go:1158). -/
def MediaPlaylist.SetWinSize (p : MediaPlaylist) (w : Nat) : MediaPlaylist × Option Err :=
  if p.capacity < w then (p, some Err.windowSize)
  else ({ p with winsize := w }, none)

/-- Go `NewMediaPlaylist` (writer.go:367): fails (returns nil) exactly
when `SetWinSize` rejects the window size. -/
def NewMediaPlaylist (winsize capacity : Nat) : Option MediaPlaylist :=
  let base : MediaPlaylist :=
    { TargetDuration := fzero, SeqNo := 0,
      Segments := List.replicate capacity none,
      Args := "", Iframe := false, Closed := false,
      MediaType := MediaTypeKind.unset, DiscontinuitySeq := 0,
      StartTime := fzero, StartTimePrecise := false,
      winsize := 0, capacity := capacity, head := 0, tail := 0, count := 0,
      buf := "", Key := none, Map := none, WV := none, Custom := [],
      ver := minver, durationAsInt := false, independentSegments := false }
  match MediaPlaylist.SetWinSize base winsize with
  | (p, none) => some p
  | (_, some _) => none

/-- Go `insertIndexFor` logic: the `switch` at writer.go:388 choosing the
insertion index of `InsertSegments` from the current slice length. -/
def insertIndexFor (segsLen seqID : Nat) : Nat :=
  if segsLen ≤ seqID then segsLen
  else if seqID ≠ 0 ∧ seqID < segsLen then seqID - 1
  else 0

/-- Sequence-id renumbering of the inserted span (writer.go:412): the
segment at offset `iter - 1` past the insertion index receives id
`idx + iter`. -/
def renumberFrom (idx : Nat) : Nat → List MediaSegment → List (Option MediaSegment)
  | _, [] => []
  | iter, s :: rest => some { s with SeqId := idx + iter } :: renumberFrom idx (iter + 1) rest

/-- Go `MediaPlaylist.InsertSegments` (writer.go:381).  The two Go
branches (grow the backing array, or shift in place) both leave the slice
equal to prefix ++ inserted ++ shifted suffix; the inserted span is
renumbered contiguously from `insertIndex + 1` and every following
non-nil segment's id is raised by the inserted length. -/
def MediaPlaylist.InsertSegments (p : MediaPlaylist) (segments : List MediaSegment)
    (seqID : Nat) : MediaPlaylist × Option Err :=
  if segments.length = 0 then (p, some Err.playlistEmpty)
  else
    let insertIndex := insertIndexFor p.Segments.length seqID
    let pre := p.Segments.take insertIndex
    let ins := renumberFrom insertIndex 1 segments
    let suf := (p.Segments.drop insertIndex).map
      (Option.map (fun s => { s with SeqId := s.SeqId + segments.length }))
    ({ p with Segments := pre ++ ins ++ suf,
              count := p.count + segments.length,
              capacity := p.capacity + segments.length,
              tail := p.count + segments.length,
              buf := "" }, none)

/-- Go `MediaPlaylist.SetMediaSegments` (writer.go:436): bulk replace;
count, tail and capacity become the new length, `head` is left as it
was. -/
def MediaPlaylist.SetMediaSegments (p : MediaPlaylist)
    (segments : List (Option MediaSegment)) : MediaPlaylist :=
  { p with Segments := segments, count := segments.length,
           tail := segments.length, capacity := segments.length, buf := "" }

/-- Go `MediaPlaylist.last` (writer.go:446). -/
def MediaPlaylist.last (p : MediaPlaylist) : Nat :=
  if p.tail = 0 then p.capacity - 1 else p.tail - 1

/-- Go `MediaPlaylist.Remove` (writer.go:455).  With `count > 0` the API
keeps `capacity > 0`, so the Go `%` cannot divide by zero there. -/
def MediaPlaylist.Remove (p : MediaPlaylist) : MediaPlaylist × Option Err :=
  if p.count = 0 then (p, some Err.playlistEmpty)
  else ({ p with head := (p.head + 1) % p.capacity,
                 count := p.count - 1,
                 SeqNo := if p.Closed then p.SeqNo else p.SeqNo + 1,
                 buf := "" }, none)

/-- Go `MediaPlaylist.AppendSegment` (writer.go:480).  The id of the new
segment is the previous live segment's id + 1, read from the slot before
`tail` (Go would panic on a nil or out-of-range slot there; unreachable
through the API).  The write into slot `tail` is a no-op when `tail` is
out of range, where Go would panic (likewise unreachable). -/
def MediaPlaylist.AppendSegment (p : MediaPlaylist) (seg : MediaSegment) :
    MediaPlaylist × Option Err :=
  if p.head = p.tail ∧ 0 < p.count then (p, some Err.playlistFull)
  else
    let sid := if 0 < p.count then
        (match p.Segments[(p.capacity + p.tail - 1) % p.capacity]? with
         | some (some prev) => prev.SeqId + 1
         | _ => 1)
      else p.SeqNo
    ({ p with Segments := p.Segments.set p.tail (some { seg with SeqId := sid }),
              tail := (p.tail + 1) % p.capacity,
              count := p.count + 1,
              TargetDuration := if F.blt p.TargetDuration seg.Duration then
                  fInt (F.ceil seg.Duration)
                else p.TargetDuration,
              buf := "" }, none)

/-- Go `MediaPlaylist.Append` (writer.go:470). -/
def MediaPlaylist.Append (p : MediaPlaylist) (uri : String) (duration : F)
    (title : String) : MediaPlaylist × Option Err :=
  MediaPlaylist.AppendSegment p (mkSegment uri duration title)

/-- Go `MediaPlaylist.Slide` (writer.go:502): both the conditional
`Remove` and the `Append` discard their errors. -/
def MediaPlaylist.Slide (p : MediaPlaylist) (uri : String) (duration : F)
    (title : String) : MediaPlaylist :=
  (MediaPlaylist.Append
    (if ¬p.Closed ∧ p.winsize ≤ p.count then (MediaPlaylist.Remove p).1 else p)
    uri duration title).1

/-- Go `MediaPlaylist.ResetCache` (writer.go:511). -/
def MediaPlaylist.ResetCache (p : MediaPlaylist) : MediaPlaylist :=
  { p with buf := "" }

/-- Go `MediaPlaylist.SetIndependentSegments` (writer.go:523). -/
def MediaPlaylist.SetIndependentSegments (p : MediaPlaylist) (b : Bool) : MediaPlaylist :=
  { p with independentSegments := b }

/-- Go `MediaPlaylist.DurationAsInt` (writer.go:941). -/
def MediaPlaylist.DurationAsInt (p : MediaPlaylist) (yes : Bool) : MediaPlaylist :=
  let ver' := if yes then versionRaise p.ver 3 else p.ver
  { p with ver := ver', durationAsInt := yes }

/-- Go `MediaPlaylist.Close` (writer.go:956): appends the end marker to a
non-empty cache instead of re-rendering. -/
def MediaPlaylist.Close (p : MediaPlaylist) : MediaPlaylist :=
  { p with buf := if 0 < p.buf.length then p.buf ++ "#EXT-X-ENDLIST\n" else p.buf,
           Closed := true }

/-- Go `MediaPlaylist.SetDefaultKey` (writer.go:966).  `tag` models the
identity of the freshly allocated `&Key{...}`. -/
def MediaPlaylist.SetDefaultKey (p : MediaPlaylist)
    (method uri iv keyformat keyformatversions : String) (tag : Nat) :
    MediaPlaylist × Option Err :=
  let ver' := if keyformat ≠ "" ∨ keyformatversions ≠ "" then versionRaise p.ver 5 else p.ver
  ({ p with ver := ver',
            Key := some ⟨tag, ⟨method, uri, iv, keyformat, keyformatversions⟩⟩ }, none)

/-- Go `MediaPlaylist.SetDefaultMap` (writer.go:981). -/
def MediaPlaylist.SetDefaultMap (p : MediaPlaylist) (uri : String)
    (limit offset : Int) : MediaPlaylist :=
  { p with ver := versionRaise p.ver 5, Map := some ⟨uri, limit, offset⟩ }

/-- Go `MediaPlaylist.SetIframeOnly` (writer.go:988). -/
def MediaPlaylist.SetIframeOnly (p : MediaPlaylist) : MediaPlaylist :=
  { p with ver := versionRaise p.ver 4, Iframe := true }

/-- Go `MediaPlaylist.SetKey` (writer.go:995).  `tag` models the identity
of the freshly allocated `&Key{...}`. -/
def MediaPlaylist.SetKey (p : MediaPlaylist)
    (method uri iv keyformat keyformatversions : String) (tag : Nat) :
    MediaPlaylist × Option Err :=
  if p.count = 0 then (p, some Err.playlistEmpty)
  else
    let ver' := if keyformat ≠ "" ∨ keyformatversions ≠ "" then versionRaise p.ver 5 else p.ver
    ({ p with ver := ver',
              Segments := updateSlot p.Segments (MediaPlaylist.last p)
                (fun s => { s with Key := some ⟨tag, ⟨method, uri, iv, keyformat, keyformatversions⟩⟩ }) },
     none)

/-- Go `MediaPlaylist.SetMap` (writer.go:1013). -/
def MediaPlaylist.SetMap (p : MediaPlaylist) (uri : String) (limit offset : Int) :
    MediaPlaylist × Option Err :=
  if p.count = 0 then (p, some Err.playlistEmpty)
  else
    ({ p with ver := versionRaise p.ver 5,
              Segments := updateSlot p.Segments (MediaPlaylist.last p)
                (fun s => { s with Map := some ⟨uri, limit, offset⟩ }) }, none)

/-- Go `MediaPlaylist.SetRange` (writer.go:1024). -/
def MediaPlaylist.SetRange (p : MediaPlaylist) (limit offset : Int) :
    MediaPlaylist × Option Err :=
  if p.count = 0 then (p, some Err.playlistEmpty)
  else
    ({ p with ver := versionRaise p.ver 4,
              Segments := updateSlot p.Segments (MediaPlaylist.last p)
                (fun s => { s with Limit := limit, Offset := offset }) }, none)

/-- Go `MediaPlaylist.SetSCTE35` (writer.go:1042). -/
def MediaPlaylist.SetSCTE35 (p : MediaPlaylist) (scte35 : Option SCTEData) :
    MediaPlaylist × Option Err :=
  if p.count = 0 then (p, some Err.playlistEmpty)
  else
    ({ p with Segments := updateSlot p.Segments (MediaPlaylist.last p)
                (fun s => { s with SCTE := scte35 }) }, none)

/-- Go `MediaPlaylist.SetSCTE` (writer.go:1037); the zero values of the
remaining `SCTE` fields are `Elapsed = 0` and the first cue-type
constant. -/
def MediaPlaylist.SetSCTE (p : MediaPlaylist) (cue id : String) (time : F) :
    MediaPlaylist × Option Err :=
  MediaPlaylist.SetSCTE35 p (some
    ⟨SCTESyntaxKind.SCTE35_67_2014, cue, id, time, fzero, SCTECueType.SCTE35Cue_Start⟩)

/-- Go `MediaPlaylist.SetDateRange` (writer.go:1051): rejects the whole
list if any entry lacks an id, before touching the segment. -/
def MediaPlaylist.SetDateRange (p : MediaPlaylist) (drs : List DateRange) :
    MediaPlaylist × Option Err :=
  if p.count = 0 then (p, some Err.playlistEmpty)
  else if drs.any (fun dr => dr.ID = "") then (p, some Err.dateRangeID)
  else
    ({ p with Segments := updateSlot p.Segments (MediaPlaylist.last p)
                (fun s => { s with DateRange := drs }) }, none)

/-- Go `MediaPlaylist.AppendDateRange` (writer.go:1065). -/
def MediaPlaylist.AppendDateRange (p : MediaPlaylist) (dr : DateRange) :
    MediaPlaylist × Option Err :=
  if p.count = 0 then (p, some Err.playlistEmpty)
  else if dr.ID = "" then (p, some Err.dateRangeID)
  else
    ({ p with Segments := updateSlot p.Segments (MediaPlaylist.last p)
                (fun s => { s with DateRange := s.DateRange ++ [dr] }) }, none)

/-- Go `MediaPlaylist.SetDiscontinuity` (writer.go:1081). -/
def MediaPlaylist.SetDiscontinuity (p : MediaPlaylist) : MediaPlaylist × Option Err :=
  if p.count = 0 then (p, some Err.playlistEmpty)
  else
    ({ p with Segments := updateSlot p.Segments (MediaPlaylist.last p)
                (fun s => { s with Discontinuity := true }) }, none)

/-- Go `MediaPlaylist.SetGap` (writer.go:1092). -/
def MediaPlaylist.SetGap (p : MediaPlaylist) : MediaPlaylist × Option Err :=
  if p.count = 0 then (p, some Err.playlistEmpty)
  else
    ({ p with Segments := updateSlot p.Segments (MediaPlaylist.last p)
                (fun s => { s with Gap := true }) }, none)

/-- Go `MediaPlaylist.SetProgramDateTime` (writer.go:1105); the value is
carried as its `DATETIME`-formatted representation. -/
def MediaPlaylist.SetProgramDateTime (p : MediaPlaylist) (value : Option String) :
    MediaPlaylist × Option Err :=
  if p.count = 0 then (p, some Err.playlistEmpty)
  else
    ({ p with Segments := updateSlot p.Segments (MediaPlaylist.last p)
                (fun s => { s with ProgramDateTime := value }) }, none)

/-- Go `MediaPlaylist.SetCustomTag` (writer.go:1115). -/
def MediaPlaylist.SetCustomTag (p : MediaPlaylist) (tag : CustomTag) : MediaPlaylist :=
  { p with Custom := setTag p.Custom tag }

/-- Go `MediaPlaylist.SetCustomSegmentTag` (writer.go:1125). -/
def MediaPlaylist.SetCustomSegmentTag (p : MediaPlaylist) (tag : CustomTag) :
    MediaPlaylist × Option Err :=
  if p.count = 0 then (p, some Err.playlistEmpty)
  else
    ({ p with Segments := updateSlot p.Segments (MediaPlaylist.last p)
                (fun s => { s with Custom := setTag s.Custom tag }) }, none)

/-- Go `MediaPlaylist.SetVersion` (writer.go:1148). -/
def MediaPlaylist.SetVersion (p : MediaPlaylist) (v : Nat) : MediaPlaylist :=
  { p with ver := v }

end M3U8

namespace M3U8

/-- Concatenation of a line list into the byte buffer the Go writer
produces: every write group in `writer.go` ends with a newline. -/
def renderLines : List String → String
  | [] => ""
  | l :: ls => l ++ "\n" ++ renderLines ls

/-- Custom-tag rendering (writer.go:90, 895): tags whose `Encode` yields
nil are skipped. -/
def customLines (tags : List CustomTag) : List String :=
  tags.filterMap CustomTag.text

/-- One EXT-X-KEY tag line (writer.go:553 and writer.go:752 emit the same
shape for the default and the per-segment key). -/
def keyLine (k : Key) : String :=
  "#EXT-X-KEY:METHOD=" ++ k.Method ++
  (if k.Method ≠ "NONE" then
      ",URI=\"" ++ k.URI ++ "\"" ++
      (if k.IV ≠ "" then ",IV=" ++ k.IV else "") ++
      (if k.Keyformat ≠ "" then ",KEYFORMAT=\"" ++ k.Keyformat ++ "\"" else "") ++
      (if k.Keyformatversions ≠ "" then
          ",KEYFORMATVERSIONS=\"" ++ k.Keyformatversions ++ "\"" else "")
    else "")

/-- Default-key header lines of the media encoder (writer.go:553). -/
def defaultKeyLines (k : Option KeyRef) : List String :=
  match k with
  | some kr => [keyLine kr.key]
  | none => []

/-- Per-segment key-change lines (writer.go:751): a tag is emitted iff
the segment carries a key reference and it is not the same reference as
the playlist default (`p.Key != seg.Key` compares Go pointers). -/
def segKeyLines (pKey segKey : Option KeyRef) : List String :=
  match segKey with
  | some kr => if pKey ≠ some kr then [keyLine kr.key] else []
  | none => []

/-- One EXT-X-MAP tag line (writer.go:578 and writer.go:868). -/
def mapLine (m : MapTag) : String :=
  "#EXT-X-MAP:URI=\"" ++ m.URI ++ "\"" ++
  (if 0 < m.Limit then
      ",BYTERANGE=" ++ strOfInt m.Limit ++ "@" ++ strOfInt m.Offset
    else "")

/-- SCTE marker lines of one segment (writer.go:708). -/
def scteLines (s : SCTEData) : List String :=
  match s.Stx with
  | SCTESyntaxKind.SCTE35_67_2014 =>
      ["#EXT-SCTE35:CUE=\"" ++ s.Cue ++ "\"" ++
        (if s.ID ≠ "" then ",ID=\"" ++ s.ID ++ "\"" else "") ++
        (if F.beq s.Time fzero then "" else ",TIME=" ++ formatShortest s.Time)]
  | SCTESyntaxKind.SCTE35_OATCLS =>
      match s.CueType with
      | SCTECueType.SCTE35Cue_Start =>
          (if s.Cue ≠ "" then ["#EXT-OATCLS-SCTE35:" ++ s.Cue] else []) ++
          ["#EXT-X-CUE-OUT:" ++ formatShortest s.Time]
      | SCTECueType.SCTE35Cue_Mid =>
          ["#EXT-X-CUE-OUT-CONT:ElapsedTime=" ++ formatShortest s.Elapsed ++
            ",Duration=" ++ formatShortest s.Time ++ ",SCTE35=" ++ s.Cue]
      | SCTECueType.SCTE35Cue_End =>
          ["#EXT-X-CUE-IN"]

/-- One EXT-X-DATERANGE line (writer.go:778).  The X-RESUME-OFFSET and
X-PLAYOUT-LIMIT attributes render `dr.Duration`, exactly as the source
does. -/
def dateRangeLine (dr : DateRange) : String :=
  "#EXT-X-DATERANGE:ID=\"" ++ dr.ID ++ "\"" ++
  (if dr.Class ≠ "" then ",CLASS=\"" ++ dr.Class ++ "\"" else "") ++
  (match dr.StartDate with
   | some d => ",START-DATE=\"" ++ d ++ "\""
   | none => "") ++
  (match dr.EndDate with
   | some d => ",END-DATE=\"" ++ d ++ "\""
   | none => "") ++
  (if F.blt fzero dr.Duration then ",DURATION=" ++ formatShortest dr.Duration else "") ++
  (if F.blt fzero dr.PlannedDuration then
      ",PLANNED-DURATION=" ++ formatShortest dr.PlannedDuration else "") ++
  (if dr.SCTE35Cmd ≠ "" then ",SCTE35-CMD=" ++ dr.SCTE35Cmd else "") ++
  (if dr.SCTE35In ≠ "" then ",SCTE35-IN=" ++ dr.SCTE35In else "") ++
  (if dr.SCTE35Out ≠ "" then ",SCTE35-OUT=" ++ dr.SCTE35Out else "") ++
  (if dr.EndOnNext ≠ "" then ",END-ON-NEXT=\"" ++ dr.EndOnNext ++ "\"" else "") ++
  (if F.blt fzero dr.XResumeOfsset then
      ",X-RESUME-OFFSET=" ++ formatShortest dr.Duration else "") ++
  (if F.blt fzero dr.XPlayoutLimit then
      ",X-PLAYOUT-LIMIT=" ++ formatShortest dr.Duration else "") ++
  (if dr.XSnap ≠ "" then ",X-SNAP=\"" ++ dr.XSnap ++ "\"" else "") ++
  (if dr.XRestrict ≠ "" then ",X-RESTRICT=\"" ++ dr.XRestrict ++ "\"" else "") ++
  (if dr.XAssetURI ≠ "" then ",X-ASSET-URI=\"" ++ dr.XAssetURI ++ "\"" else "") ++
  (if dr.XAssetList ≠ "" then ",X-ASSET-LIST=\"" ++ dr.XAssetList ++ "\"" else "") ++
  String.join (dr.X.map (fun kv => "," ++ kv.1 ++ "=\"" ++ kv.2 ++ "\""))

/-- Widevine vendor lines (writer.go:624).  The missing space after
`#WV-VIDEO-LEVEL-IDC` reproduces writer.go:671. -/
def wvLines (w : WV) : List String :=
  (if w.AudioChannels ≠ 0 then ["#WV-AUDIO-CHANNELS " ++ strOfNat w.AudioChannels] else []) ++
  (if w.AudioFormat ≠ 0 then ["#WV-AUDIO-FORMAT " ++ strOfNat w.AudioFormat] else []) ++
  (if w.AudioProfileIDC ≠ 0 then ["#WV-AUDIO-PROFILE-IDC " ++ strOfNat w.AudioProfileIDC] else []) ++
  (if w.AudioSampleSize ≠ 0 then ["#WV-AUDIO-SAMPLE-SIZE " ++ strOfNat w.AudioSampleSize] else []) ++
  (if w.AudioSamplingFrequency ≠ 0 then
      ["#WV-AUDIO-SAMPLING-FREQUENCY " ++ strOfNat w.AudioSamplingFrequency] else []) ++
  (if w.CypherVersion ≠ "" then ["#WV-CYPHER-VERSION " ++ w.CypherVersion] else []) ++
  (if w.ECM ≠ "" then ["#WV-ECM " ++ w.ECM] else []) ++
  (if w.VideoFormat ≠ 0 then ["#WV-VIDEO-FORMAT " ++ strOfNat w.VideoFormat] else []) ++
  (if w.VideoFrameRate ≠ 0 then ["#WV-VIDEO-FRAME-RATE " ++ strOfNat w.VideoFrameRate] else []) ++
  (if w.VideoLevelIDC ≠ 0 then ["#WV-VIDEO-LEVEL-IDC" ++ strOfNat w.VideoLevelIDC] else []) ++
  (if w.VideoProfileIDC ≠ 0 then ["#WV-VIDEO-PROFILE-IDC " ++ strOfNat w.VideoProfileIDC] else []) ++
  (if w.VideoResolution ≠ "" then ["#WV-VIDEO-RESOLUTION " ++ w.VideoResolution] else []) ++
  (if w.VideoSAR ≠ "" then ["#WV-VIDEO-SAR " ++ w.VideoSAR] else [])

/-- Playlist-type lines (writer.go:591). -/
def mediaTypeLines : MediaTypeKind → List String
  | MediaTypeKind.unset => []
  | MediaTypeKind.EVENT => ["#EXT-X-PLAYLIST-TYPE:EVENT", "#EXT-X-ALLOW-CACHE:NO"]
  | MediaTypeKind.VOD => ["#EXT-X-PLAYLIST-TYPE:VOD"]

/-- Lines emitted for one live segment of the walk (writer.go:708..925),
with `durStr` the already-formatted EXTINF duration. -/
def segmentLines (p : MediaPlaylist) (seg : MediaSegment) (durStr : String) : List String :=
  (match seg.SCTE with
   | some s => scteLines s
   | none => []) ++
  segKeyLines p.Key seg.Key ++
  seg.DateRange.map dateRangeLine ++
  (if seg.Discontinuity then ["#EXT-X-DISCONTINUITY"] else []) ++
  (if seg.Gap then ["#EXT-X-GAP"] else []) ++
  (match p.Map, seg.Map with
   | none, some m => [mapLine m]
   | _, _ => []) ++
  (match seg.ProgramDateTime with
   | some t => ["#EXT-X-PROGRAM-DATE-TIME:" ++ t]
   | none => []) ++
  (if 0 < seg.Limit then
      ["#EXT-X-BYTERANGE:" ++ strOfInt seg.Limit ++ "@" ++ strOfInt seg.Offset]
    else []) ++
  customLines seg.Custom ++
  ["#EXTINF:" ++ durStr ++ "," ++ seg.Title,
   seg.URI ++ (if p.Args ≠ "" then "?" ++ p.Args else "")]

/-- The live-window walk of the media encoder (writer.go:697): starting
at `head`, up to `winsize` non-empty slots (`winsize = 0` walks all), nil
slots skipped without counting.  `none` models the Go runtime panic on an
out-of-range slot read (or a modulus by zero capacity); `cache` is the
per-encode duration-format memoization, keyed by float equality. -/
def encodeWalk (p : MediaPlaylist) : Nat → Nat → Nat → List (F × String) →
    Option (List String)
  | _, _, 0, _ => some []
  | head, i, count + 1, cache =>
    if p.winsize ≠ 0 ∧ p.winsize ≤ i then some []
    else
      match p.Segments[head]? with
      | none => none
      | some slot =>
        if p.capacity = 0 then none
        else
          let head' := (head + 1) % p.capacity
          match slot with
          | none => encodeWalk p head' i count cache
          | some seg =>
            let i' := if 0 < p.winsize then i + 1 else i
            let durStr := match cache.find? (fun e => F.beq e.1 seg.Duration) with
              | some e => e.2
              | none =>
                if p.durationAsInt then strOfInt (F.ceil seg.Duration)
                else formatFixed3 seg.Duration
            let cache' := match cache.find? (fun e => F.beq e.1 seg.Duration) with
              | some _ => cache
              | none => cache ++ [(seg.Duration, durStr)]
            match encodeWalk p head' i' count cache' with
            | none => none
            | some rest => some (segmentLines p seg durStr ++ rest)

/-- The full line list built by `MediaPlaylist.Encode` (writer.go:529)
when the cache is empty; `none` models the panic inside the walk. -/
def mediaBuildLines (p : MediaPlaylist) : Option (List String) :=
  match encodeWalk p p.head 0 p.count [] with
  | none => none
  | some segLs =>
    some ("#EXTM3U" ::
      ("#EXT-X-VERSION:" ++ strver p.ver) ::
      ((if p.independentSegments then ["#EXT-X-INDEPENDENT-SEGMENTS"] else []) ++
       customLines p.Custom ++
       defaultKeyLines p.Key ++
       (match p.Map with
        | some m => [mapLine m]
        | none => []) ++
       mediaTypeLines p.MediaType ++
       ["#EXT-X-MEDIA-SEQUENCE:" ++ strOfNat p.SeqNo,
        "#EXT-X-TARGETDURATION:" ++ strOfInt (F.ceil p.TargetDuration)] ++
       (if F.blt fzero p.StartTime then
           ["#EXT-X-START:TIME-OFFSET=" ++ formatShortest p.StartTime ++
             (if p.StartTimePrecise then ",PRECISE=YES" else "")]
         else []) ++
       (if p.DiscontinuitySeq ≠ 0 then
           ["#EXT-X-DISCONTINUITY-SEQUENCE:" ++ strOfNat p.DiscontinuitySeq]
         else []) ++
       (if p.Iframe then ["#EXT-X-I-FRAMES-ONLY"] else []) ++
       (match p.WV with
        | some w => wvLines w
        | none => []) ++
       segLs ++
       (if p.Closed then ["#EXT-X-ENDLIST"] else [])))

/-- Go `MediaPlaylist.Encode` (writer.go:529): returns the memoized
buffer when it is non-empty, otherwise builds, stores and returns the
rendering.  `none` models the runtime panic of the walk. -/
def MediaPlaylist.Encode (p : MediaPlaylist) : Option (String × MediaPlaylist) :=
  if 0 < p.buf.length then some (p.buf, p)
  else
    match mediaBuildLines p with
    | none => none
    | some ls =>
      let b := renderLines ls
      some (b, { p with buf := b })

/-- One EXT-X-SESSION-DATA line (writer.go:111). -/
def sessionDataLine (sd : SessionData) : String :=
  "#EXT-X-SESSION-DATA:DATA-ID=\"" ++ sd.DataID ++ "\"" ++
  (if sd.Value ≠ "" then ",VALUE=\"" ++ sd.Value ++ "\"" else "") ++
  (if sd.URI ≠ "" ∧ sd.Value = "" then ",URI=\"" ++ sd.URI ++ "\"" else "") ++
  (if sd.Language ≠ "" then ",LANGUAGE=\"" ++ sd.Language ++ "\"" else "")

/-- Session-data lines with (data-id, language) dedup, both lowercased
(writer.go:100); `written` is the set of keys already emitted. -/
def sessionDataLines : List SessionData → List String → List String
  | [], _ => []
  | sd :: rest, written =>
    if sd.Language ≠ "" then
      let key := sd.DataID.toLower ++ "-" ++ sd.Language.toLower
      if written.contains key then sessionDataLines rest written
      else sessionDataLine sd :: sessionDataLines rest (key :: written)
    else sessionDataLine sd :: sessionDataLines rest written

/-- One EXT-X-MEDIA line (writer.go:148). -/
def altLine (alt : Alternative) : String :=
  "#EXT-X-MEDIA:" ++
  (if alt.AltType ≠ "" then "TYPE=" ++ alt.AltType else "") ++
  (if alt.GroupId ≠ "" then ",GROUP-ID=\"" ++ alt.GroupId ++ "\"" else "") ++
  (if alt.Name ≠ "" then ",NAME=\"" ++ alt.Name ++ "\"" else "") ++
  ",DEFAULT=" ++ (if alt.Default then "YES" else "NO") ++
  (if alt.Autoselect ≠ "" then ",AUTOSELECT=" ++ alt.Autoselect else "") ++
  (if alt.Language ≠ "" then ",LANGUAGE=\"" ++ alt.Language ++ "\"" else "") ++
  (if alt.Forced ≠ "" then ",FORCED=" ++ alt.Forced else "") ++
  (if alt.Characteristics ≠ "" then
      ",CHARACTERISTICS=\"" ++ alt.Characteristics ++ "\"" else "") ++
  (if alt.Subtitles ≠ "" then ",SUBTITLES=\"" ++ alt.Subtitles ++ "\"" else "") ++
  (if alt.URI ≠ "" then ",URI=\"" ++ alt.URI ++ "\"" else "") ++
  (if alt.InstreamId ≠ "" then ",INSTREAM-ID=\"" ++ alt.InstreamId ++ "\"" else "") ++
  (if alt.Channels ≠ "" then ",CHANNELS=\"" ++ alt.Channels ++ "\"" else "")

/-- Dedup key of an alternative (writer.go:142). -/
def altKey (alt : Alternative) : String :=
  alt.AltType ++ "-" ++ alt.GroupId ++ "-" ++ alt.Name ++ "-" ++ alt.Language

/-- EXT-X-MEDIA lines of one variant with the write-once dedup set
threaded through (writer.go:139). -/
def altLines : List Alternative → List String → List String × List String
  | [], written => ([], written)
  | alt :: rest, written =>
    if written.contains (altKey alt) then altLines rest written
    else
      let (ls, written') := altLines rest (altKey alt :: written)
      (altLine alt :: ls, written')

/-- The I-frame stream tag line of a variant (writer.go:211). -/
def iframeStreamLine (v : Variant) : String :=
  "#EXT-X-I-FRAME-STREAM-INF:PROGRAM-ID=" ++ strOfNat v.ProgramId ++
  ",BANDWIDTH=" ++ strOfNat v.Bandwidth ++
  (if v.AverageBandwidth ≠ 0 then
      ",AVERAGE-BANDWIDTH=" ++ strOfNat v.AverageBandwidth else "") ++
  (if v.Codecs ≠ "" then ",CODECS=\"" ++ v.Codecs ++ "\"" else "") ++
  (if v.Resolution ≠ "" then ",RESOLUTION=" ++ v.Resolution else "") ++
  (if v.Video ≠ "" then ",VIDEO=\"" ++ v.Video ++ "\"" else "") ++
  (if v.VideoRange ≠ "" then ",VIDEO-RANGE=" ++ v.VideoRange else "") ++
  (if v.HDCPLevel ≠ "" then ",HDCP-LEVEL=" ++ v.HDCPLevel else "") ++
  (if v.URI ≠ "" then ",URI=\"" ++ v.URI ++ "\"" else "")

/-- The stream tag line of a non-I-frame variant (writer.go:248). -/
def streamInfLine (v : Variant) : String :=
  "#EXT-X-STREAM-INF:PROGRAM-ID=" ++ strOfNat v.ProgramId ++
  ",BANDWIDTH=" ++ strOfNat v.Bandwidth ++
  (if v.AverageBandwidth ≠ 0 then
      ",AVERAGE-BANDWIDTH=" ++ strOfNat v.AverageBandwidth else "") ++
  (if v.Codecs ≠ "" then ",CODECS=\"" ++ v.Codecs ++ "\"" else "") ++
  (if v.Resolution ≠ "" then ",RESOLUTION=" ++ v.Resolution else "") ++
  (if v.AudioGroup ≠ "" then ",AUDIO=\"" ++ v.AudioGroup ++ "\"" else "") ++
  (if v.Video ≠ "" then ",VIDEO=\"" ++ v.Video ++ "\"" else "") ++
  (if v.Captions ≠ "" then
      ",CLOSED-CAPTIONS=" ++
      (if v.Captions = "NONE" then v.Captions else "\"" ++ v.Captions ++ "\"")
    else "") ++
  (if v.Subtitles ≠ "" then ",SUBTITLES=\"" ++ v.Subtitles ++ "\"" else "") ++
  (if v.Name ≠ "" then ",NAME=\"" ++ v.Name ++ "\"" else "") ++
  (if F.beq v.FrameRate fzero then "" else ",FRAME-RATE=" ++ formatFixed3 v.FrameRate) ++
  (if v.VideoRange ≠ "" then ",VIDEO-RANGE=" ++ v.VideoRange else "") ++
  (if v.HDCPLevel ≠ "" then ",HDCP-LEVEL=" ++ v.HDCPLevel else "")

/-- The URI line following a stream tag, with the master query fragment
joined by `&` or `?` (writer.go:309). -/
def variantURILine (v : Variant) (args : String) : String :=
  v.URI ++
  (if args ≠ "" then (if v.URI.contains '?' then "&" else "?") ++ args else "")

/-- Per-variant output of the master encoder (writer.go:138): the
variant's not-yet-written alternatives, then either the I-frame tag alone
or the stream tag plus URI line. -/
def variantLines (args : String) : List Variant → List String → List String
  | [], _ => []
  | v :: rest, written =>
    let (als, written') := altLines v.Alternatives written
    als ++
    (if v.Iframe then [iframeStreamLine v]
     else [streamInfLine v, variantURILine v args]) ++
    variantLines args rest written'

/-- The full line list built by `MasterPlaylist.Encode` (writer.go:76)
when the cache is empty. -/
def masterBuildLines (p : MasterPlaylist) : List String :=
  "#EXTM3U" ::
  ("#EXT-X-VERSION:" ++ strver p.ver) ::
  ((if p.independentSegments then ["#EXT-X-INDEPENDENT-SEGMENTS"] else []) ++
   customLines p.Custom ++
   sessionDataLines p.SessionData [] ++
   variantLines p.Args p.Variants [])

/-- Go `MasterPlaylist.Encode` (writer.go:76): returns the memoized
buffer when non-empty, otherwise builds, stores and returns the
rendering. -/
def MasterPlaylist.Encode (p : MasterPlaylist) : String × MasterPlaylist :=
  if 0 < p.buf.length then (p.buf, p)
  else
    let b := renderLines (masterBuildLines p)
    (b, { p with buf := b })

end M3U8

namespace M3U8

/-- A media-playlist operation of the append/remove fragment of the API,
used to state invariants over arbitrary call sequences. -/
inductive MPOp where
  | app (seg : MediaSegment)
  | rem
deriving DecidableEq

/-- Run one operation, keeping the (unchanged) state when the call
errors, exactly as a Go caller that ignores the error observes it. -/
def applyOp (p : MediaPlaylist) : MPOp → MediaPlaylist
  | MPOp.app seg => (MediaPlaylist.AppendSegment p seg).1
  | MPOp.rem => (MediaPlaylist.Remove p).1

/-- Run a sequence of append/remove operations. -/
def runOps (p : MediaPlaylist) : List MPOp → MediaPlaylist
  | [] => p
  | op :: rest => runOps (applyOp p op) rest

/-- Iterate `AppendSegment`, stopping at the first error. -/
def appendAll (p : MediaPlaylist) : List MediaSegment → MediaPlaylist × Option Err
  | [] => (p, none)
  | s :: rest =>
    match MediaPlaylist.AppendSegment p s with
    | (p', none) => appendAll p' rest
    | (p', some e) => (p', some e)

/-- Ring-buffer shape after `k` successful appends onto an empty
playlist whose base sequence number is `b`: head still at 0, `k` live
segments in slots `0..k-1` with ids `b..b+k-1`. -/
structure RB (p : MediaPlaylist) (C b k : Nat) : Prop where
  hcap : p.capacity = C
  hsize : p.Segments.length = C
  hhead : p.head = 0
  htail : p.tail = k % C
  hcount : p.count = k
  hseq : p.SeqNo = b
  hids : ∀ i, i < k → ∃ s, p.Segments[i]? = some (some s) ∧ s.SeqId = b + i

/-- Fallback value for reading the playlist out of the optional
constructor result; never reached on the concrete inputs below. -/
def fallbackMP : MediaPlaylist :=
  { TargetDuration := fzero, SeqNo := 0, Segments := [], Args := "",
    Iframe := false, Closed := false, MediaType := MediaTypeKind.unset,
    DiscontinuitySeq := 0, StartTime := fzero, StartTimePrecise := false,
    winsize := 0, capacity := 0, head := 0, tail := 0, count := 0,
    buf := "", Key := none, Map := none, WV := none, Custom := [],
    ver := minver, durationAsInt := false, independentSegments := false }

/-- Concrete playlist for the `InsertSegments` scenario: capacity 3,
window 2, two appended segments. -/
def c1p0 : MediaPlaylist := (NewMediaPlaylist 2 3).getD fallbackMP

/-- First appended segment of the `InsertSegments` scenario. -/
def c1p1 : MediaPlaylist := (MediaPlaylist.Append c1p0 "a.ts" (fInt 4) "").1

/-- Second appended segment of the `InsertSegments` scenario. -/
def c1p2 : MediaPlaylist := (MediaPlaylist.Append c1p1 "b.ts" (fInt 6) "").1

/-- The segment handed to `InsertSegments` in the scenario. -/
def c1x : MediaSegment := mkSegment "x.ts" (fInt 5) ""

/-- Concrete playlist for spec scenario 1: capacity 3, window 2. -/
def c2p0 : MediaPlaylist := (NewMediaPlaylist 2 3).getD fallbackMP

/-- Scenario 1 after appending A (4.0s). -/
def c2p1 : MediaPlaylist := (MediaPlaylist.Append c2p0 "a.ts" (fInt 4) "").1

/-- Scenario 1 after appending B (6.0s). -/
def c2p2 : MediaPlaylist := (MediaPlaylist.Append c2p1 "b.ts" (fInt 6) "").1

/-- Scenario 1 after appending C (5.0s). -/
def c2p3 : MediaPlaylist := (MediaPlaylist.Append c2p2 "c.ts" (fInt 5) "").1

/-- The full line list the encoder produces for scenario 1. -/
def c2lines : List String :=
  ["#EXTM3U", "#EXT-X-VERSION:3", "#EXT-X-MEDIA-SEQUENCE:0",
   "#EXT-X-TARGETDURATION:6", "#EXTINF:4.000,", "a.ts", "#EXTINF:6.000,", "b.ts"]

/-- Concrete playlist for the cache-invalidation scenario. -/
def c3p0 : MediaPlaylist := (NewMediaPlaylist 1 1).getD fallbackMP

/-- Cache scenario: one appended segment. -/
def c3p1 : MediaPlaylist := (MediaPlaylist.Append c3p0 "s.ts" (fInt 4) "").1

/-- Cache scenario: the state after `Encode` has populated the cache. -/
def c3p2 : MediaPlaylist := (MediaPlaylist.Encode c3p1).elim fallbackMP Prod.snd

/-- Concrete playlist for the target-duration witness. -/
def c4p0 : MediaPlaylist := (NewMediaPlaylist 1 1).getD fallbackMP

/-- Segment appended in the target-duration witness. -/
def c4seg : MediaSegment := mkSegment "x.ts" (fInt 4) ""

/-- Capacity-2 playlist with base sequence number 5 for the append-ids
witness. -/
def c6pb : MediaPlaylist := { (NewMediaPlaylist 1 2).getD fallbackMP with SeqNo := 5 }

/-- First witness segment. -/
def c6s1 : MediaSegment := mkSegment "s1.ts" (fInt 1) ""

/-- Second witness segment. -/
def c6s2 : MediaSegment := mkSegment "s2.ts" (fInt 2) ""

/-- The witness playlist filled to capacity. -/
def c6full : MediaPlaylist := (appendAll c6pb [c6s1, c6s2]).1

/-- Segment whose append must fail on the full witness playlist. -/
def c6s3 : MediaSegment := mkSegment "s3.ts" (fInt 3) ""

/-- Empty capacity-1 playlist for the `Remove` witness. -/
def c7p0 : MediaPlaylist := (NewMediaPlaylist 1 1).getD fallbackMP

/-- One-segment playlist for the `Remove` witness. -/
def c7p1 : MediaPlaylist := (MediaPlaylist.Append c7p0 "r.ts" (fInt 2) "").1

/-- A concrete key value used by the key-identity witness. -/
def c8key : Key := ⟨"AES-128", "https://key.example", "", "", ""⟩

/-- Empty playlist for the encode-idempotence witness. -/
def c9p : MediaPlaylist := (NewMediaPlaylist 0 0).getD fallbackMP

/-- First-encode bytes of the idempotence witness. -/
def c9b : String := (MediaPlaylist.Encode c9p).elim "" Prod.fst

/-- First-encode state of the idempotence witness. -/
def c9s : MediaPlaylist := (MediaPlaylist.Encode c9p).elim fallbackMP Prod.snd

/-- First-encode bytes of the master idempotence witness. -/
def c9mb : String := (MasterPlaylist.Encode NewMasterPlaylist).1

/-- First-encode state of the master idempotence witness. -/
def c9ms : MasterPlaylist := (MasterPlaylist.Encode NewMasterPlaylist).2

/-- Capacity-2 playlist for the stale-head scenario. -/
def c10p0 : MediaPlaylist := (NewMediaPlaylist 2 2).getD fallbackMP

/-- Stale-head scenario: first append. -/
def c10p1 : MediaPlaylist := (MediaPlaylist.Append c10p0 "u1.ts" (fInt 1) "").1

/-- Stale-head scenario: second append. -/
def c10p2 : MediaPlaylist := (MediaPlaylist.Append c10p1 "u2.ts" (fInt 1) "").1

/-- Stale-head scenario: `Remove` has advanced `head` to 1. -/
def c10p3 : MediaPlaylist := (MediaPlaylist.Remove c10p2).1

/-- The single replacement segment of the stale-head scenario. -/
def c10seg : MediaSegment := mkSegment "n1.ts" (fInt 1) ""

end M3U8

namespace M3U8

theorem F.blt_iff (a b : F) : F.blt a b = true ↔ a.toRat < b.toRat := by
  have ha : (0 : ℚ) < (a.den : ℚ) := by exact_mod_cast a.den_pos
  have hb : (0 : ℚ) < (b.den : ℚ) := by exact_mod_cast b.den_pos
  rw [F.blt, decide_eq_true_eq, F.toRat, F.toRat, div_lt_div_iff₀ ha hb]
  constructor
  · intro h; exact_mod_cast h
  · intro h; exact_mod_cast h

theorem F.ceil_eq (x : F) : (F.ceil x : ℚ) = ⌈x.toRat⌉ := by
  have h : (⌈x.toRat⌉ : ℤ) = -((-x.num) / (x.den : Int)) := by
    have hfl : ⌊((-x.num : ℤ) : ℚ) / ((x.den : ℕ) : ℚ)⌋ = (-x.num) / (x.den : Int) :=
      Rat.floor_intCast_div_natCast (-x.num) x.den
    have : ⌈x.toRat⌉ = -⌊-x.toRat⌋ := by
      rw [Int.floor_neg]; ring
    rw [this, F.toRat, ← neg_div, ← Int.cast_neg, hfl]
  rw [F.ceil]
  exact_mod_cast h.symm

theorem fInt_toRat (n : Int) : (fInt n).toRat = (n : ℚ) := by
  simp [fInt, F.toRat]

theorem renderLines_length_pos (l : String) (ls : List String) :
    0 < (renderLines (l :: ls)).length := by
  show 0 < ((l ++ "\n") ++ renderLines ls).length
  rw [String.length_append, String.length_append]
  have h1 : ("\n").length = 1 := rfl
  omega

theorem mediaBuildLines_shape (p : MediaPlaylist) (ls : List String)
    (h : mediaBuildLines p = some ls) : ∃ t, ls = "#EXTM3U" :: t := by
  unfold mediaBuildLines at h
  cases hw : encodeWalk p p.head 0 p.count [] with
  | none => rw [hw] at h; cases h
  | some segLs => rw [hw] at h; exact ⟨_, (Option.some.inj h).symm⟩

/-- C9: calling Encode twice with no intervening mutation returns the
same (memoized) buffer and state both times, for media and master
playlists alike. -/
theorem encode_idempotent :
    (∀ (p : MediaPlaylist) (b : String) (s : MediaPlaylist),
        MediaPlaylist.Encode p = some (b, s) → MediaPlaylist.Encode s = some (b, s)) ∧
    (∀ (m : MasterPlaylist) (b : String) (s : MasterPlaylist),
        MasterPlaylist.Encode m = (b, s) → MasterPlaylist.Encode s = (b, s)) := by
  constructor
  · intro p b s h
    unfold MediaPlaylist.Encode at h ⊢
    by_cases hb : 0 < p.buf.length
    · rw [if_pos hb] at h
      obtain ⟨rfl, rfl⟩ : p.buf = b ∧ p = s := by
        have := Option.some.inj h
        exact ⟨congrArg Prod.fst this, congrArg Prod.snd this⟩
      rw [if_pos hb]
    · rw [if_neg hb] at h
      cases hml : mediaBuildLines p with
      | none => rw [hml] at h; cases h
      | some ls =>
        rw [hml] at h
        obtain ⟨rfl, rfl⟩ : renderLines ls = b ∧ { p with buf := renderLines ls } = s := by
          have := Option.some.inj h
          exact ⟨congrArg Prod.fst this, congrArg Prod.snd this⟩
        have hpos : 0 < (renderLines ls).length := by
          obtain ⟨t, rfl⟩ := mediaBuildLines_shape p ls hml
          exact renderLines_length_pos _ _
        rw [if_pos hpos]
  · intro m b s h
    unfold MasterPlaylist.Encode at h ⊢
    by_cases hb : 0 < m.buf.length
    · rw [if_pos hb] at h
      obtain ⟨rfl, rfl⟩ : m.buf = b ∧ m = s :=
        ⟨congrArg Prod.fst h, congrArg Prod.snd h⟩
      rw [if_pos hb]
    · rw [if_neg hb] at h
      obtain ⟨rfl, rfl⟩ :
          renderLines (masterBuildLines m) = b ∧
            { m with buf := renderLines (masterBuildLines m) } = s :=
        ⟨congrArg Prod.fst h, congrArg Prod.snd h⟩
      have hpos : 0 < (renderLines (masterBuildLines m)).length :=
        renderLines_length_pos _ _
      rw [if_pos hpos]

theorem encode_idempotent_witness :
    MediaPlaylist.Encode c9s = some (c9b, c9s) ∧
    MasterPlaylist.Encode c9ms = (c9mb, c9ms) :=
  ⟨encode_idempotent.1 c9p c9b c9s (by rfl),
   encode_idempotent.2 NewMasterPlaylist c9mb c9ms (by rfl)⟩

end M3U8

namespace M3U8

/-- C3 (amended): the bulk mutators Append/AppendSegment, InsertSegments,
SetMediaSegments, Remove and Slide clear the cached buffer on success,
while the per-segment setters leave the cache untouched, so an Encode
after only a setter returns the stale memoized buffer. -/
theorem cache_clear_partition :
    (∀ p seg, (MediaPlaylist.AppendSegment p seg).2 = none →
        (MediaPlaylist.AppendSegment p seg).1.buf = "") ∧
    (∀ p segs sid, (MediaPlaylist.InsertSegments p segs sid).2 = none →
        (MediaPlaylist.InsertSegments p segs sid).1.buf = "") ∧
    (∀ p segs, (MediaPlaylist.SetMediaSegments p segs).buf = "") ∧
    (∀ p, (MediaPlaylist.Remove p).2 = none → (MediaPlaylist.Remove p).1.buf = "") ∧
    (∀ p u d t, ¬p.Closed → p.winsize ≤ p.count → 0 < p.count →
        (MediaPlaylist.Slide p u d t).buf = "") ∧
    (∀ p m u i kf kv tg, (MediaPlaylist.SetKey p m u i kf kv tg).1.buf = p.buf) ∧
    (∀ p u l o, (MediaPlaylist.SetMap p u l o).1.buf = p.buf) ∧
    (∀ p s, (MediaPlaylist.SetSCTE35 p s).1.buf = p.buf) ∧
    (∀ p drs, (MediaPlaylist.SetDateRange p drs).1.buf = p.buf) ∧
    (∀ p dr, (MediaPlaylist.AppendDateRange p dr).1.buf = p.buf) ∧
    (∀ p, (MediaPlaylist.SetDiscontinuity p).1.buf = p.buf) ∧
    (∀ p, (MediaPlaylist.SetGap p).1.buf = p.buf) ∧
    (∀ p v, (MediaPlaylist.SetProgramDateTime p v).1.buf = p.buf) ∧
    (∀ p l o, (MediaPlaylist.SetRange p l o).1.buf = p.buf) ∧
    (∀ p t, (MediaPlaylist.SetCustomSegmentTag p t).1.buf = p.buf) := by
  refine ⟨?_, ?_, ?_, ?_, ?_, ?_, ?_, ?_, ?_, ?_, ?_, ?_, ?_, ?_, ?_⟩
  · intro p seg h
    by_cases hc : p.head = p.tail ∧ 0 < p.count
    · simp [MediaPlaylist.AppendSegment, hc] at h
    · simp [MediaPlaylist.AppendSegment, hc]
  · intro p segs sid h
    by_cases hc : segs.length = 0
    · simp [MediaPlaylist.InsertSegments, hc] at h
    · simp [MediaPlaylist.InsertSegments, hc]
  · intro p segs; rfl
  · intro p h
    by_cases hc : p.count = 0
    · simp [MediaPlaylist.Remove, hc] at h
    · simp [MediaPlaylist.Remove, hc]
  · intro p u d t hcl hw hc
    unfold MediaPlaylist.Slide
    rw [if_pos ⟨hcl, hw⟩]
    have hbuf : ((MediaPlaylist.Remove p).1).buf = "" := by
      simp [MediaPlaylist.Remove, Nat.pos_iff_ne_zero.mp hc]
    unfold MediaPlaylist.Append MediaPlaylist.AppendSegment
    by_cases hfull : (MediaPlaylist.Remove p).1.head = (MediaPlaylist.Remove p).1.tail ∧
        0 < (MediaPlaylist.Remove p).1.count
    · rw [if_pos hfull]; exact hbuf
    · rw [if_neg hfull]
  · intro p m u i kf kv tg
    by_cases hc : p.count = 0 <;> simp [MediaPlaylist.SetKey, hc]
  · intro p u l o
    by_cases hc : p.count = 0 <;> simp [MediaPlaylist.SetMap, hc]
  · intro p s
    by_cases hc : p.count = 0 <;> simp [MediaPlaylist.SetSCTE35, hc]
  · intro p drs
    by_cases hc : p.count = 0
    · simp [MediaPlaylist.SetDateRange, hc]
    · by_cases hd : drs.any (fun dr => dr.ID = "") <;>
        simp [MediaPlaylist.SetDateRange, hc, hd]
  · intro p dr
    by_cases hc : p.count = 0
    · simp [MediaPlaylist.AppendDateRange, hc]
    · by_cases hd : dr.ID = "" <;> simp [MediaPlaylist.AppendDateRange, hc, hd]
  · intro p
    by_cases hc : p.count = 0 <;> simp [MediaPlaylist.SetDiscontinuity, hc]
  · intro p
    by_cases hc : p.count = 0 <;> simp [MediaPlaylist.SetGap, hc]
  · intro p v
    by_cases hc : p.count = 0 <;> simp [MediaPlaylist.SetProgramDateTime, hc]
  · intro p l o
    by_cases hc : p.count = 0 <;> simp [MediaPlaylist.SetRange, hc]
  · intro p t
    by_cases hc : p.count = 0 <;> simp [MediaPlaylist.SetCustomSegmentTag, hc]

/-- C3 counterexample: `SetDiscontinuity` succeeds on a playlist with a
populated encode cache and leaves the cache in place, contradicting the
claim that every successful mutating call clears it. -/
theorem cache_clear_counterexample :
    (MediaPlaylist.SetDiscontinuity c3p2).2 = none ∧
    (MediaPlaylist.SetDiscontinuity c3p2).1.buf ≠ "" := by
  constructor
  · decide
  · decide

theorem cache_clear_partition_witness :
    (MediaPlaylist.Remove c3p1).1.buf = "" :=
  cache_clear_partition.2.2.2.1 c3p1 (by decide)

end M3U8

namespace M3U8

/-- C5: every mutator that returns an error leaves the playlist state
(including the cached buffer) exactly as it was. -/
theorem mutators_atomic_on_error :
    (∀ p seg e, (MediaPlaylist.AppendSegment p seg).2 = some e →
        (MediaPlaylist.AppendSegment p seg).1 = p) ∧
    (∀ p segs sid e, (MediaPlaylist.InsertSegments p segs sid).2 = some e →
        (MediaPlaylist.InsertSegments p segs sid).1 = p) ∧
    (∀ p e, (MediaPlaylist.Remove p).2 = some e → (MediaPlaylist.Remove p).1 = p) ∧
    (∀ p w e, (MediaPlaylist.SetWinSize p w).2 = some e →
        (MediaPlaylist.SetWinSize p w).1 = p) ∧
    (∀ p m u i kf kv tg e, (MediaPlaylist.SetKey p m u i kf kv tg).2 = some e →
        (MediaPlaylist.SetKey p m u i kf kv tg).1 = p) ∧
    (∀ p u l o e, (MediaPlaylist.SetMap p u l o).2 = some e →
        (MediaPlaylist.SetMap p u l o).1 = p) ∧
    (∀ p l o e, (MediaPlaylist.SetRange p l o).2 = some e →
        (MediaPlaylist.SetRange p l o).1 = p) ∧
    (∀ p s e, (MediaPlaylist.SetSCTE35 p s).2 = some e →
        (MediaPlaylist.SetSCTE35 p s).1 = p) ∧
    (∀ p drs e, (MediaPlaylist.SetDateRange p drs).2 = some e →
        (MediaPlaylist.SetDateRange p drs).1 = p) ∧
    (∀ p dr e, (MediaPlaylist.AppendDateRange p dr).2 = some e →
        (MediaPlaylist.AppendDateRange p dr).1 = p) ∧
    (∀ p e, (MediaPlaylist.SetDiscontinuity p).2 = some e →
        (MediaPlaylist.SetDiscontinuity p).1 = p) ∧
    (∀ p e, (MediaPlaylist.SetGap p).2 = some e → (MediaPlaylist.SetGap p).1 = p) ∧
    (∀ p v e, (MediaPlaylist.SetProgramDateTime p v).2 = some e →
        (MediaPlaylist.SetProgramDateTime p v).1 = p) ∧
    (∀ p t e, (MediaPlaylist.SetCustomSegmentTag p t).2 = some e →
        (MediaPlaylist.SetCustomSegmentTag p t).1 = p) := by
  refine ⟨?_, ?_, ?_, ?_, ?_, ?_, ?_, ?_, ?_, ?_, ?_, ?_, ?_, ?_⟩
  · intro p seg e h
    by_cases hc : p.head = p.tail ∧ 0 < p.count <;>
      simp [MediaPlaylist.AppendSegment, hc] at h ⊢
  · intro p segs sid e h
    by_cases hc : segs.length = 0 <;>
      simp [MediaPlaylist.InsertSegments, hc] at h ⊢
  · intro p e h
    by_cases hc : p.count = 0 <;> simp [MediaPlaylist.Remove, hc] at h ⊢
  · intro p w e h
    by_cases hc : p.capacity < w <;> simp [MediaPlaylist.SetWinSize, hc] at h ⊢
  · intro p m u i kf kv tg e h
    by_cases hc : p.count = 0 <;> simp [MediaPlaylist.SetKey, hc] at h ⊢
  · intro p u l o e h
    by_cases hc : p.count = 0 <;> simp [MediaPlaylist.SetMap, hc] at h ⊢
  · intro p l o e h
    by_cases hc : p.count = 0 <;> simp [MediaPlaylist.SetRange, hc] at h ⊢
  · intro p s e h
    by_cases hc : p.count = 0 <;> simp [MediaPlaylist.SetSCTE35, hc] at h ⊢
  · intro p drs e h
    by_cases hc : p.count = 0
    · simp [MediaPlaylist.SetDateRange, hc]
    · by_cases hd : drs.any (fun dr => dr.ID = "") <;>
        simp [MediaPlaylist.SetDateRange, hc, hd] at h ⊢
  · intro p dr e h
    by_cases hc : p.count = 0
    · simp [MediaPlaylist.AppendDateRange, hc]
    · by_cases hd : dr.ID = "" <;>
        simp [MediaPlaylist.AppendDateRange, hc, hd] at h ⊢
  · intro p e h
    by_cases hc : p.count = 0 <;> simp [MediaPlaylist.SetDiscontinuity, hc] at h ⊢
  · intro p e h
    by_cases hc : p.count = 0 <;> simp [MediaPlaylist.SetGap, hc] at h ⊢
  · intro p v e h
    by_cases hc : p.count = 0 <;> simp [MediaPlaylist.SetProgramDateTime, hc] at h ⊢
  · intro p t e h
    by_cases hc : p.count = 0 <;> simp [MediaPlaylist.SetCustomSegmentTag, hc] at h ⊢

theorem mutators_atomic_witness :
    (MediaPlaylist.Remove c7p0).1 = c7p0 ∧
    (MediaPlaylist.AppendSegment c6full c6s3).1 = c6full :=
  ⟨mutators_atomic_on_error.2.2.1 c7p0 Err.playlistEmpty (by decide),
   mutators_atomic_on_error.1 c6full c6s3 Err.playlistFull (by decide)⟩

/-- C7: Remove on an empty playlist fails with PlaylistEmpty and leaves
the state unchanged; a successful Remove advances head modulo capacity,
decrements count, and increments the base sequence number exactly when
the playlist is not closed (the cache is cleared as well). -/
theorem remove_spec (p : MediaPlaylist) (_hcap : 0 < p.capacity) :
    (p.count = 0 → MediaPlaylist.Remove p = (p, some Err.playlistEmpty)) ∧
    (0 < p.count → MediaPlaylist.Remove p =
      ({ p with head := (p.head + 1) % p.capacity,
                count := p.count - 1,
                SeqNo := if p.Closed then p.SeqNo else p.SeqNo + 1,
                buf := "" }, none)) := by
  constructor
  · intro hc; simp [MediaPlaylist.Remove, hc]
  · intro hc; simp [MediaPlaylist.Remove, Nat.pos_iff_ne_zero.mp hc]

theorem remove_spec_witness :
    MediaPlaylist.Remove c7p0 = (c7p0, some Err.playlistEmpty) ∧
    MediaPlaylist.Remove c7p1 =
      ({ c7p1 with head := (c7p1.head + 1) % c7p1.capacity,
                   count := c7p1.count - 1,
                   SeqNo := if c7p1.Closed then c7p1.SeqNo else c7p1.SeqNo + 1,
                   buf := "" }, none) :=
  ⟨(remove_spec c7p0 (by decide)).1 (by decide),
   (remove_spec c7p1 (by decide)).2 (by decide)⟩

/-- C8: the per-segment EXT-X-KEY tag is emitted exactly when the
segment has a key reference that is not the identical reference as the
playlist default; identity means the same allocation, so two distinct
references with equal key contents both produce tags (one default, one
per-segment). -/
theorem key_identity_spec :
    (∀ pKey segKey : Option KeyRef,
        segKeyLines pKey segKey ≠ [] ↔ segKey.isSome ∧ segKey ≠ pKey) ∧
    (∀ t₁ t₂ : Nat, ∀ k : Key, t₁ ≠ t₂ →
        defaultKeyLines (some ⟨t₁, k⟩) = [keyLine k] ∧
        segKeyLines (some ⟨t₁, k⟩) (some ⟨t₂, k⟩) = [keyLine k]) := by
  constructor
  · intro pKey segKey
    cases segKey with
    | none => simp [segKeyLines]
    | some kr =>
      by_cases hp : pKey = some kr
      · simp [segKeyLines, hp]
      · simp [segKeyLines, hp, Ne.symm hp]
  · intro t₁ t₂ k ht
    constructor
    · rfl
    · have : some (⟨t₁, k⟩ : KeyRef) ≠ some ⟨t₂, k⟩ := by
        intro h
        exact ht (congrArg KeyRef.tag (Option.some.inj h))
      simp [segKeyLines, this]

theorem key_identity_witness :
    defaultKeyLines (some ⟨0, c8key⟩) = [keyLine c8key] ∧
    segKeyLines (some ⟨0, c8key⟩) (some ⟨1, c8key⟩) = [keyLine c8key] :=
  key_identity_spec.2 0 1 c8key (by decide)

end M3U8

namespace M3U8

/-- C10: SetMediaSegments resets count/tail/capacity to the new length
but leaves `head` alone, so after a prior Remove has advanced the head
past the new length, Encode's very first slot read `Segments[head]` is
out of bounds (the walk's panic branch, modelled by `none`, is taken). -/
theorem setMediaSegments_head_stale (p : MediaPlaylist)
    (segs : List (Option MediaSegment)) :
    (MediaPlaylist.SetMediaSegments p segs).head = p.head ∧
    (MediaPlaylist.SetMediaSegments p segs).count = segs.length ∧
    (MediaPlaylist.SetMediaSegments p segs).tail = segs.length ∧
    (MediaPlaylist.SetMediaSegments p segs).capacity = segs.length ∧
    (0 < segs.length → segs.length ≤ p.head →
      MediaPlaylist.Encode (MediaPlaylist.SetMediaSegments p segs) = none) := by
  refine ⟨rfl, rfl, rfl, rfl, ?_⟩
  intro hpos hle
  obtain ⟨n, hn⟩ : ∃ n, segs.length = n + 1 := ⟨segs.length - 1, by omega⟩
  have hwalk : encodeWalk (MediaPlaylist.SetMediaSegments p segs)
      (MediaPlaylist.SetMediaSegments p segs).head 0
      (MediaPlaylist.SetMediaSegments p segs).count [] = none := by
    have hcount : (MediaPlaylist.SetMediaSegments p segs).count = n + 1 := hn
    rw [hcount]
    have hhd : (MediaPlaylist.SetMediaSegments p segs).head = p.head := rfl
    rw [hhd]
    have hcond : ¬((MediaPlaylist.SetMediaSegments p segs).winsize ≠ 0 ∧
        (MediaPlaylist.SetMediaSegments p segs).winsize ≤ 0) := by
      intro hx
      omega
    rw [encodeWalk, if_neg hcond]
    have hnone : (MediaPlaylist.SetMediaSegments p segs).Segments[p.head]? = none := by
      have : (MediaPlaylist.SetMediaSegments p segs).Segments = segs := rfl
      rw [this]
      exact List.getElem?_eq_none hle
    rw [hnone]
  unfold MediaPlaylist.Encode
  rw [if_neg (by simp [MediaPlaylist.SetMediaSegments])]
  unfold mediaBuildLines
  rw [hwalk]

theorem setMediaSegments_head_stale_witness :
    MediaPlaylist.Encode (MediaPlaylist.SetMediaSegments c10p3 [some c10seg]) = none ∧
    (MediaPlaylist.SetMediaSegments c10p3 [some c10seg]).head = c10p3.head :=
  ⟨(setMediaSegments_head_stale c10p3 [some c10seg]).2.2.2.2 (by decide) (by decide),
   (setMediaSegments_head_stale c10p3 [some c10seg]).1⟩

/-- C2 (amended): for the capacity-3, window-2 playlist with appended
segments A(4.0), B(6.0), C(5.0), Encode shows media-sequence 0 and
target duration 6 as claimed, but the EXTINF body holds exactly A and B:
the walk emits up to window-size segments starting at the head (the
oldest), so the newest segment C is the one excluded. -/
theorem encode_window_scenario_amended :
    mediaBuildLines c2p3 = some c2lines ∧
    (MediaPlaylist.Encode c2p3).map Prod.fst = some (renderLines c2lines) ∧
    "#EXT-X-MEDIA-SEQUENCE:0" ∈ c2lines ∧
    "#EXT-X-TARGETDURATION:6" ∈ c2lines ∧
    "a.ts" ∈ c2lines ∧ "b.ts" ∈ c2lines ∧ "c.ts" ∉ c2lines := by
  refine ⟨by decide, by decide, by decide, by decide, by decide, by decide, by decide⟩

/-- C2 counterexample: the claim that the EXTINF body holds exactly B
and C fails — the encoder's line list contains A and omits C. -/
theorem encode_window_scenario_counterexample :
    mediaBuildLines c2p3 = some c2lines ∧
    "b.ts" ∈ c2lines ∧ "c.ts" ∉ c2lines ∧ "a.ts" ∈ c2lines := by
  refine ⟨by decide, by decide, by decide, by decide⟩

end M3U8

namespace M3U8

theorem applyOp_targetDuration_mono (p : MediaPlaylist) (op : MPOp) :
    p.TargetDuration.toRat ≤ (applyOp p op).TargetDuration.toRat := by
  cases op with
  | rem =>
    by_cases hc : p.count = 0 <;> simp [applyOp, MediaPlaylist.Remove, hc]
  | app seg =>
    by_cases hc : p.head = p.tail ∧ 0 < p.count
    · simp [applyOp, MediaPlaylist.AppendSegment, hc]
    · have hTD : (applyOp p (MPOp.app seg)).TargetDuration =
          if F.blt p.TargetDuration seg.Duration then fInt (F.ceil seg.Duration)
          else p.TargetDuration := by
        simp [applyOp, MediaPlaylist.AppendSegment, hc]
      rw [hTD]
      by_cases hb : F.blt p.TargetDuration seg.Duration = true
      · rw [if_pos hb, fInt_toRat, F.ceil_eq]
        have hlt : p.TargetDuration.toRat < seg.Duration.toRat := (F.blt_iff _ _).mp hb
        exact le_of_lt (lt_of_lt_of_le hlt (Int.le_ceil _))
      · rw [if_neg hb]

/-- C4: a successful append sets the target duration to
`max(current, ceil(duration))` (the stored value is integral in every
API-reachable state, which the hypothesis captures), and across any
sequence of append/remove operations the target duration never
decreases. -/
theorem targetDuration_spec :
    (∀ (p : MediaPlaylist) (seg : MediaSegment) (n : ℤ),
        p.TargetDuration.toRat = (n : ℚ) →
        (MediaPlaylist.AppendSegment p seg).2 = none →
        (MediaPlaylist.AppendSegment p seg).1.TargetDuration.toRat =
          max p.TargetDuration.toRat (⌈seg.Duration.toRat⌉ : ℚ)) ∧
    (∀ (p : MediaPlaylist) (ops : List MPOp),
        p.TargetDuration.toRat ≤ (runOps p ops).TargetDuration.toRat) := by
  constructor
  · intro p seg n hn hsucc
    by_cases hc : p.head = p.tail ∧ 0 < p.count
    · simp [MediaPlaylist.AppendSegment, hc] at hsucc
    · have hTD : (MediaPlaylist.AppendSegment p seg).1.TargetDuration =
          if F.blt p.TargetDuration seg.Duration then fInt (F.ceil seg.Duration)
          else p.TargetDuration := by
        simp [MediaPlaylist.AppendSegment, hc]
      rw [hTD]
      by_cases hb : F.blt p.TargetDuration seg.Duration = true
      · rw [if_pos hb, fInt_toRat, F.ceil_eq]
        have hlt : p.TargetDuration.toRat < seg.Duration.toRat := (F.blt_iff _ _).mp hb
        exact (max_eq_right (le_of_lt (lt_of_lt_of_le hlt (Int.le_ceil _)))).symm
      · rw [if_neg hb]
        have hge : seg.Duration.toRat ≤ p.TargetDuration.toRat := by
          by_contra hx
          push_neg at hx
          exact hb ((F.blt_iff _ _).mpr hx)
        rw [hn] at hge
        have h1 : ⌈seg.Duration.toRat⌉ ≤ n := Int.ceil_le.mpr hge
        have h2 : (⌈seg.Duration.toRat⌉ : ℚ) ≤ p.TargetDuration.toRat := by
          rw [hn]
          exact_mod_cast h1
        exact (max_eq_left h2).symm
  · intro p ops
    induction ops generalizing p with
    | nil => exact le_refl _
    | cons op rest ih =>
      exact le_trans (applyOp_targetDuration_mono p op) (ih (applyOp p op))

theorem targetDuration_spec_witness :
    (MediaPlaylist.AppendSegment c4p0 c4seg).1.TargetDuration.toRat =
      max c4p0.TargetDuration.toRat (⌈c4seg.Duration.toRat⌉ : ℚ) ∧
    c4p0.TargetDuration.toRat ≤ (runOps c4p0 [MPOp.app c4seg]).TargetDuration.toRat :=
  ⟨targetDuration_spec.1 c4p0 c4seg 0
      (by rw [show c4p0.TargetDuration = fzero from rfl]
          simp [fzero, fInt, F.toRat])
      (by decide),
   targetDuration_spec.2 c4p0 [MPOp.app c4seg]⟩

end M3U8

namespace M3U8

theorem appendSegment_rb_step (p : MediaPlaylist) (C b k : Nat) (seg : MediaSegment)
    (h : RB p C b k) (hk : k < C) :
    (MediaPlaylist.AppendSegment p seg).2 = none ∧
    RB (MediaPlaylist.AppendSegment p seg).1 C b (k + 1) := by
  have hne : ¬(p.head = p.tail ∧ 0 < p.count) := by
    rintro ⟨he, hpos⟩
    rw [h.hhead, h.htail, Nat.mod_eq_of_lt hk] at he
    rw [h.hcount] at hpos
    omega
  have hsid : (if 0 < p.count then
      match p.Segments[(p.capacity + p.tail - 1) % p.capacity]? with
      | some (some prev) => prev.SeqId + 1
      | _ => 1
    else p.SeqNo) = b + k := by
    rcases Nat.eq_zero_or_pos k with hk0 | hkpos
    · subst hk0
      rw [h.hcount]
      simp [h.hseq]
    · rw [h.hcount, if_pos hkpos]
      have hidx : (p.capacity + p.tail - 1) % p.capacity = k - 1 := by
        rw [h.hcap, h.htail, Nat.mod_eq_of_lt hk]
        have hq : C + k - 1 = C + (k - 1) := by omega
        rw [hq, Nat.add_mod_left, Nat.mod_eq_of_lt (by omega)]
      rw [hidx]
      obtain ⟨s, hs, hsid⟩ := h.hids (k - 1) (by omega)
      rw [hs]
      show s.SeqId + 1 = b + k
      rw [hsid]
      omega
  have htl : p.tail = k := by rw [h.htail, Nat.mod_eq_of_lt hk]
  have hsegs : (MediaPlaylist.AppendSegment p seg).1.Segments =
      p.Segments.set k (some { seg with SeqId := b + k }) := by
    simp only [MediaPlaylist.AppendSegment, if_neg hne]
    rw [hsid, htl]
  refine ⟨by simp [MediaPlaylist.AppendSegment, hne], ?_⟩
  refine ⟨?_, ?_, ?_, ?_, ?_, ?_, ?_⟩
  · simp only [MediaPlaylist.AppendSegment, if_neg hne]
    exact h.hcap
  · rw [hsegs, List.length_set, h.hsize]
  · simp only [MediaPlaylist.AppendSegment, if_neg hne]
    exact h.hhead
  · simp only [MediaPlaylist.AppendSegment, if_neg hne]
    show (p.tail + 1) % p.capacity = (k + 1) % C
    rw [htl, h.hcap]
  · simp only [MediaPlaylist.AppendSegment, if_neg hne]
    show p.count + 1 = k + 1
    rw [h.hcount]
  · simp only [MediaPlaylist.AppendSegment, if_neg hne]
    exact h.hseq
  · intro i hi
    rw [hsegs]
    rcases Nat.lt_or_ge i k with hik | hik
    · obtain ⟨s, hs, hsid2⟩ := h.hids i hik
      exact ⟨s, by rw [List.getElem?_set_ne (by omega), hs], hsid2⟩
    · have hik' : i = k := by omega
      subst hik'
      refine ⟨{ seg with SeqId := b + i }, ?_, rfl⟩
      rw [List.getElem?_set_self (by rw [h.hsize]; omega)]

theorem appendAll_rb (segs : List MediaSegment) :
    ∀ (p : MediaPlaylist) (C b k : Nat), RB p C b k → k + segs.length ≤ C →
    (appendAll p segs).2 = none ∧ RB (appendAll p segs).1 C b (k + segs.length) := by
  induction segs with
  | nil => intro p C b k h _; exact ⟨rfl, by simpa using h⟩
  | cons s rest ih =>
    intro p C b k h hle
    have hk : k < C := by
      simp only [List.length_cons] at hle
      omega
    obtain ⟨h2, hrb⟩ := appendSegment_rb_step p C b k s h hk
    have hx : MediaPlaylist.AppendSegment p s =
        ((MediaPlaylist.AppendSegment p s).1, none) := by
      rw [← h2]
    have happ : appendAll p (s :: rest) =
        appendAll (MediaPlaylist.AppendSegment p s).1 rest := by
      show (match MediaPlaylist.AppendSegment p s with
            | (q, none) => appendAll q rest
            | (q, some e) => (q, some e)) =
          appendAll (MediaPlaylist.AppendSegment p s).1 rest
      rw [hx]
    rw [happ]
    have hres := ih (MediaPlaylist.AppendSegment p s).1 C b (k + 1) hrb (by
      simp only [List.length_cons] at hle
      omega)
    have hlen : k + (s :: rest).length = k + 1 + rest.length := by
      simp only [List.length_cons]
      omega
    rw [hlen]
    exact hres

end M3U8

namespace M3U8

theorem newMediaPlaylist_rb (w C b : Nat) (p₀ : MediaPlaylist)
    (h : NewMediaPlaylist w C = some p₀) : RB { p₀ with SeqNo := b } C b 0 := by
  unfold NewMediaPlaylist at h
  simp only [MediaPlaylist.SetWinSize] at h
  by_cases hw : C < w
  · rw [if_pos hw] at h
    cases h
  · rw [if_neg hw] at h
    have hp : p₀ =
        { TargetDuration := fzero, SeqNo := 0,
          Segments := List.replicate C none,
          Args := "", Iframe := false, Closed := false,
          MediaType := MediaTypeKind.unset, DiscontinuitySeq := 0,
          StartTime := fzero, StartTimePrecise := false,
          winsize := w, capacity := C, head := 0, tail := 0, count := 0,
          buf := "", Key := none, Map := none, WV := none, Custom := [],
          ver := minver, durationAsInt := false,
          independentSegments := false } := (Option.some.inj h).symm
    subst hp
    refine ⟨rfl, ?_, rfl, ?_, rfl, rfl, ?_⟩
    · exact List.length_replicate C none
    · exact (Nat.zero_mod C).symm
    · intro i hi
      omega

/-- C6: starting from a fresh playlist of capacity `C ≥ 1` with base
sequence number `b`, any run of at most `C` appends succeeds and leaves
the slots numbered `b, b+1, b+2, ...` in order (strictly increasing
by 1, the first equal to the base); and whenever `count = capacity > 0`
with `head = tail`, a further append fails with PlaylistFull leaving the
state untouched. -/
theorem append_seq_ids :
    (∀ (w C b : Nat) (segs : List MediaSegment) (p₀ : MediaPlaylist),
        NewMediaPlaylist w C = some p₀ → segs.length ≤ C →
        (appendAll { p₀ with SeqNo := b } segs).2 = none ∧
        (∀ i, i < segs.length →
          ∃ s, (appendAll { p₀ with SeqNo := b } segs).1.Segments[i]? = some (some s) ∧
            s.SeqId = b + i)) ∧
    (∀ (p : MediaPlaylist) (seg : MediaSegment),
        p.count = p.capacity → p.head = p.tail → 0 < p.capacity →
        MediaPlaylist.AppendSegment p seg = (p, some Err.playlistFull)) := by
  constructor
  · intro w C b segs p₀ hnew hlen
    have hrb0 := newMediaPlaylist_rb w C b p₀ hnew
    obtain ⟨h2, hrb⟩ := appendAll_rb segs { p₀ with SeqNo := b } C b 0 hrb0 (by omega)
    refine ⟨h2, ?_⟩
    intro i hi
    exact hrb.hids i (by omega)
  · intro p seg hcnt hht hcap
    have hfull : p.head = p.tail ∧ 0 < p.count := ⟨hht, by omega⟩
    simp [MediaPlaylist.AppendSegment, hfull]

theorem append_seq_ids_witness :
    (appendAll c6pb [c6s1, c6s2]).2 = none ∧
    MediaPlaylist.AppendSegment c6full c6s3 = (c6full, some Err.playlistFull) :=
  ⟨(append_seq_ids.1 1 2 5 [c6s1, c6s2] ((NewMediaPlaylist 1 2).getD fallbackMP)
      (by decide) (by decide)).1,
   append_seq_ids.2 c6full c6s3 (by decide) (by decide) (by decide)⟩

end M3U8

namespace M3U8

theorem renumberFrom_length (idx : Nat) :
    ∀ (it : Nat) (segs : List MediaSegment),
      (renumberFrom idx it segs).length = segs.length := by
  intro it segs
  induction segs generalizing it with
  | nil => rfl
  | cons s rest ih => simp [renumberFrom, ih]

theorem renumberFrom_getElem (idx : Nat) :
    ∀ (it : Nat) (segs : List MediaSegment) (j : Nat),
      (renumberFrom idx it segs)[j]? =
        (segs[j]?).map (fun s => some { s with SeqId := idx + it + j }) := by
  intro it segs
  induction segs generalizing it with
  | nil => intro j; simp [renumberFrom]
  | cons s rest ih =>
    intro j
    cases j with
    | zero => simp [renumberFrom]
    | succ j =>
      simp only [renumberFrom, List.getElem?_cons_succ]
      rw [ih (it + 1) j]
      have harith : idx + (it + 1) + j = idx + it + (j + 1) := by omega
      rw [harith]

theorem insertIndexFor_le (L s : Nat) : insertIndexFor L s ≤ L := by
  unfold insertIndexFor
  split_ifs <;> omega

/-- C1 (amended): `InsertSegments` inserts at index `len(Segments)` when
`at_seq_id ≥ len(Segments)`, at `at_seq_id − 1` when
`1 ≤ at_seq_id < len`, and at index 0 — the front, not the end — when
`at_seq_id = 0` on a non-empty backing slice; the inserted span is
renumbered from `index + 1` and every following segment's id is raised
by the inserted length, so an `at_seq_id = 0` insert into a non-empty
playlist does not preserve the existing segments' ids. -/
theorem insertSegments_index_spec (p : MediaPlaylist) (segs : List MediaSegment)
    (seqID : Nat) (h : segs ≠ []) :
    (MediaPlaylist.InsertSegments p segs seqID).2 = none ∧
    insertIndexFor p.Segments.length seqID =
      (if p.Segments.length ≤ seqID then p.Segments.length
       else if seqID = 0 then 0 else seqID - 1) ∧
    (MediaPlaylist.InsertSegments p segs seqID).1.Segments.length =
      p.Segments.length + segs.length ∧
    (MediaPlaylist.InsertSegments p segs seqID).1.Segments.take
        (insertIndexFor p.Segments.length seqID) =
      p.Segments.take (insertIndexFor p.Segments.length seqID) ∧
    (∀ j, ∀ hj : j < segs.length,
      (MediaPlaylist.InsertSegments p segs seqID).1.Segments[
          insertIndexFor p.Segments.length seqID + j]? =
        some (some { segs.get ⟨j, hj⟩ with
          SeqId := insertIndexFor p.Segments.length seqID + j + 1 })) ∧
    (MediaPlaylist.InsertSegments p segs seqID).1.Segments.drop
        (insertIndexFor p.Segments.length seqID + segs.length) =
      (p.Segments.drop (insertIndexFor p.Segments.length seqID)).map
        (Option.map (fun s => { s with SeqId := s.SeqId + segs.length })) ∧
    (MediaPlaylist.InsertSegments p segs seqID).1.count = p.count + segs.length ∧
    (MediaPlaylist.InsertSegments p segs seqID).1.capacity =
      p.capacity + segs.length ∧
    (MediaPlaylist.InsertSegments p segs seqID).1.tail = p.count + segs.length ∧
    (MediaPlaylist.InsertSegments p segs seqID).1.buf = "" := by
  have hne : ¬(segs.length = 0) := by
    simpa using h
  set idx := insertIndexFor p.Segments.length seqID with hidxdef
  set pre := p.Segments.take idx with hpredef
  set ins := renumberFrom idx 1 segs with hinsdef
  set suf := (p.Segments.drop idx).map
      (Option.map (fun s => { s with SeqId := s.SeqId + segs.length })) with hsufdef
  have hsegs : (MediaPlaylist.InsertSegments p segs seqID).1.Segments =
      pre ++ ins ++ suf := by
    simp only [MediaPlaylist.InsertSegments, if_neg hne]
  have hidxle : idx ≤ p.Segments.length := insertIndexFor_le _ _
  have hpre : pre.length = idx := by
    rw [hpredef, List.length_take]
    exact Nat.min_eq_left hidxle
  have hins : ins.length = segs.length := renumberFrom_length _ _ _
  have hdrop : (MediaPlaylist.InsertSegments p segs seqID).1.Segments.drop idx =
      ins ++ suf := by
    have hd := List.drop_left pre (ins ++ suf)
    rw [hpre] at hd
    rw [hsegs, List.append_assoc]
    exact hd
  refine ⟨by simp only [MediaPlaylist.InsertSegments, if_neg hne], ?_, ?_, ?_, ?_, ?_,
    by simp only [MediaPlaylist.InsertSegments, if_neg hne],
    by simp only [MediaPlaylist.InsertSegments, if_neg hne],
    by simp only [MediaPlaylist.InsertSegments, if_neg hne],
    by simp only [MediaPlaylist.InsertSegments, if_neg hne]⟩
  · rw [hidxdef]
    unfold insertIndexFor
    split_ifs <;> omega
  · rw [hsegs]
    simp only [List.length_append, hpre, hins, hsufdef, List.length_map,
      List.length_drop]
    omega
  · have ht := List.take_left pre (ins ++ suf)
    rw [hpre] at ht
    rw [hsegs, List.append_assoc, ht]
  · intro j hj
    have h1 : (MediaPlaylist.InsertSegments p segs seqID).1.Segments[idx + j]? =
        ((MediaPlaylist.InsertSegments p segs seqID).1.Segments.drop idx)[j]? := by
      rw [List.getElem?_drop]
    rw [h1, hdrop, List.getElem?_append_left (by rw [hins]; exact hj), hinsdef,
      renumberFrom_getElem]
    rw [List.getElem?_eq_getElem hj]
    show some (some _) = some (some _)
    have harith : idx + 1 + j = idx + j + 1 := by omega
    rw [harith]
    rfl
  · have h2 := List.drop_left (pre ++ ins) suf
    rw [List.length_append, hpre, hins] at h2
    rw [hsegs]
    exact h2

theorem insertSegments_index_spec_witness :
    (MediaPlaylist.InsertSegments c1p2 [c1x] 0).2 = none ∧
    (MediaPlaylist.InsertSegments c1p2 [c1x] 0).1.buf = "" :=
  ⟨(insertSegments_index_spec c1p2 [c1x] 0 (by decide)).1,
   (insertSegments_index_spec c1p2 [c1x] 0 (by decide)).2.2.2.2.2.2.2.2.2⟩

/-- C1 counterexample: inserting one segment with `at_seq_id = 0` into a
non-empty playlist (slots A, B, nil with ids 0, 1) puts the new segment
at the front with id 1 and changes A's id, instead of appending at the
end with the prefix ids preserved. -/
theorem insertSegments_seqid_zero_counterexample :
    (MediaPlaylist.InsertSegments c1p2 [c1x] 0).2 = none ∧
    (MediaPlaylist.InsertSegments c1p2 [c1x] 0).1.Segments[0]? =
      some (some { c1x with SeqId := 1 }) ∧
    (MediaPlaylist.InsertSegments c1p2 [c1x] 0).1.Segments[1]? =
      some (some { mkSegment "a.ts" (fInt 4) "" with SeqId := 1 }) ∧
    (MediaPlaylist.InsertSegments c1p2 [c1x] 0).1.Segments[0]? ≠
      some (some { mkSegment "a.ts" (fInt 4) "" with SeqId := 0 }) := by
  refine ⟨by decide, by decide, by decide, by decide⟩

end M3U8
